import Mathlib

/-!
Shallow embedding of the `tauri-glue-perf` benchmark application.

The repository has two source files:
* `src/backend/src/main.rs` — a tauri shell exposing one command, `create_row`,
  which ignores its arguments and returns `Ok(())`.
* `src/frontend/src/main.rs` — a leptos UI holding a row collection
  (`Vec<RowData>` behind a signal), a selection (`Option<usize>`), a timing
  metric (`f64`, displayed in microseconds), and a process-wide id counter
  (`ID_COUNTER : AtomicUsize`, initial value 1).

Modelling choices:
* `usize` is modelled by `Nat` (the counter and collection sizes reachable in a
  process lifetime are far below `2^64`, so wrap-around never occurs on the
  claims' domain).
* `f64` timing values are modelled by `ℚ` (the claims are about which formula
  is computed, not about rounding).
* The random generator `thread_rng` is modelled by an oracle
  `rng : Nat → Nat × Nat × Nat` giving, for loop iteration `i`, the three
  draws used by `slice.choose`; `choose` on a slice of length `len` picks the
  element at `draw % len`.
* The fallible cross-process round trip is `Except Unit Unit`; the `expect`
  in `build_data` is modelled by returning `Option`: `none` is the fatal panic.
-/

namespace TauriGluePerf

/-- Adjective word list (`ADJECTIVES` in `src/frontend/src/main.rs`). -/
def ADJECTIVES : List String :=
  ["pretty", "large", "big", "small", "tall", "short", "long", "handsome",
   "plain", "quaint", "clean", "elegant", "easy", "angry", "crazy", "helpful",
   "mushy", "odd", "unsightly", "adorable", "important", "inexpensive",
   "cheap", "expensive", "fancy"]

/-- Colour word list (`COLOURS` in `src/frontend/src/main.rs`). -/
def COLOURS : List String :=
  ["red", "yellow", "blue", "green", "pink", "brown", "purple", "brown",
   "white", "black", "orange"]

/-- Noun word list (`NOUNS` in `src/frontend/src/main.rs`). -/
def NOUNS : List String :=
  ["table", "chair", "house", "bbq", "desk", "car", "pony", "cookie",
   "sandwich", "burger", "pizza", "mouse", "keyboard"]

/-- A row: id plus mutable text label (`RowData` in the frontend; the label
signal pair is modelled by the label's current value). -/
structure RowData where
  id : Nat
  label : String
deriving DecidableEq, Repr

/-- The ids of a row collection, in position order. -/
def idsOf (l : List RowData) : List Nat := l.map (fun r => r.id)

/-- Random oracle: for each loop iteration, the three draws consumed by the
three `choose` calls (adjective, colour, noun). -/
abbrev Rng := Nat → Nat × Nat × Nat

/-- `slice.choose(&mut rng)` on a non-empty slice: the element at
`draw % len`. -/
def chooseWord (ws : List String) (draw : Nat) : String :=
  ws.getD (draw % ws.length) ""

/-- Label composition in `build_data`: adjective, space, colour, space, noun. -/
def mkLabel (draws : Nat × Nat × Nat) : String :=
  chooseWord ADJECTIVES draws.1 ++ " " ++ chooseWord COLOURS draws.2.1
    ++ " " ++ chooseWord NOUNS draws.2.2

/-- The backend command `create_row` (`src/backend/src/main.rs`): ignores all
three arguments and returns `Ok(())` (its `println!` is commented out). -/
def create_row (iid rid : Nat) (label : String) : Except Unit Unit :=
  Except.ok ()

/-- `build_data(cx, count)` from the frontend: for `i` in `0..count`, compose
a random label, take the current `ID_COUNTER` value as the id, round trip
through `create_row` (a failure — `none` — models the `expect("oops")`
panic), push the row, then increment the counter.  Returns the generated rows
together with the final counter value. -/
def build_data (rng : Rng) (i counter : Nat) : Nat → Option (List RowData × Nat)
  | 0 => some ([], counter)
  | n + 1 =>
    let label := mkLabel (rng i)
    match create_row i counter label with
    | Except.ok _ =>
      match build_data rng (i + 1) (counter + 1) n with
      | some (rest, c) => some (⟨counter, label⟩ :: rest, c)
      | none => none
    | Except.error _ => none

/-- The pure row stream underlying `build_data`: row `i` gets id `counter + i`
and a label composed from the oracle's draws at `i`. -/
def genRows (rng : Rng) (i counter : Nat) : Nat → List RowData
  | 0 => []
  | n + 1 => ⟨counter, mkLabel (rng i)⟩ :: genRows rng (i + 1) (counter + 1) n

/-- The UI state: the three reactive cells of `App` plus the global
`ID_COUNTER`. -/
structure AppState where
  data : List RowData
  selected : Option Nat
  op_time_avg : ℚ
  counter : Nat
deriving DecidableEq, Repr

/-- `remove` in `App`: `data.retain(|row| row.id != id)`. -/
def removeOp (id : Nat) (s : AppState) : AppState :=
  { s with data := s.data.filter (fun row => row.id != id) }

/-- `run` in `App`: replace the collection with 1000 fresh rows, set the
timing metric to `Date.now() - start` (the elapsed milliseconds, a parameter
here), and reset the selection.  `none` models a panic inside `build_data`. -/
def runOp (rng : Rng) (elapsed_ms : ℚ) (s : AppState) : Option AppState :=
  (build_data rng 0 s.counter 1000).map fun p =>
    { data := p.1, selected := none, op_time_avg := elapsed_ms, counter := p.2 }

/-- `run_lots` in `App`: replace the collection with 10000 fresh rows, set the
timing metric to `(Date.now() - start) / 10.0`, and reset the selection. -/
def run_lotsOp (rng : Rng) (elapsed_ms : ℚ) (s : AppState) : Option AppState :=
  (build_data rng 0 s.counter 10000).map fun p =>
    { data := p.1, selected := none, op_time_avg := elapsed_ms / 10,
      counter := p.2 }

/-- `add` in `App`, generalised over the generated count (the source uses
1000): append `count` fresh rows to the existing collection and set the
timing metric to the elapsed milliseconds; selection is not touched. -/
def addOpN (rng : Rng) (elapsed_ms : ℚ) (count : Nat) (s : AppState) :
    Option AppState :=
  (build_data rng 0 s.counter count).map fun p =>
    { s with data := s.data ++ p.1, op_time_avg := elapsed_ms, counter := p.2 }

/-- `add` in `App` as written: `build_data(cx, 1000)` appended. -/
def addOp (rng : Rng) (elapsed_ms : ℚ) (s : AppState) : Option AppState :=
  addOpN rng elapsed_ms 1000 s

/-- The per-position body of `update`: `data.iter().step_by(10)` visits
exactly the positions divisible by 10 and pushes `" !!!"` onto those rows'
label signals. -/
def updateLabels : Nat → List RowData → List RowData
  | _, [] => []
  | i, r :: rest =>
    (if i % 10 = 0 then { r with label := r.label ++ " !!!" } else r)
      :: updateLabels (i + 1) rest

/-- `update` in `App`. -/
def updateOp (s : AppState) : AppState :=
  { s with data := updateLabels 0 s.data }

/-- `clear` in `App`: empty collection, no selection, zero metric. -/
def clearOp (s : AppState) : AppState :=
  { s with data := [], selected := none, op_time_avg := 0 }

/-- `swap_rows` in `App`: if the collection's length exceeds 998, swap the
elements at positions 1 and 998 (`Vec::swap`, in bounds under the guard). -/
def swap_rowsOp (s : AppState) : AppState :=
  { s with data :=
      if s.data.length > 998 then
        match s.data[1]?, s.data[998]? with
        | some a, some b => (s.data.set 1 b).set 998 a
        | _, _ => s.data
      else s.data }

/-- The row click handler: `set_selected(Some(row_id))`, with no validation. -/
def selectOp (id : Nat) (s : AppState) : AppState :=
  { s with selected := some id }

/-- Elapsed time converted from milliseconds (the unit of `js_sys::Date::now`)
to microseconds (the unit the header displays the metric in). -/
def elapsedMicros (ms : ℚ) : ℚ := 1000 * ms

/-- The state invariant of §3 of the spec: no duplicate ids, and every id in
the collection was drawn from a strictly smaller counter value. -/
def Inv (s : AppState) : Prop :=
  (idsOf s.data).Nodup ∧ ∀ j ∈ idsOf s.data, j < s.counter

instance (s : AppState) : Decidable (Inv s) := by
  unfold Inv; infer_instance

/-- A concrete state with 999 rows, used to exercise the swap operation. -/
def swapWitnessState : AppState :=
  { data := List.replicate 999 ⟨0, ""⟩, selected := none, op_time_avg := 0,
    counter := 0 }

/-- A concrete two-row state, used to exercise the remove operation. -/
def removeWitnessState : AppState :=
  { data := [⟨1, "a"⟩, ⟨2, "b"⟩], selected := none, op_time_avg := 0,
    counter := 3 }

/-- A concrete one-row state satisfying the id invariant. -/
def invWitnessState : AppState :=
  { data := [⟨1, "x"⟩], selected := none, op_time_avg := 0, counter := 2 }

/-! ### Helper lemmas -/

theorem build_data_eq_genRows (rng : Rng) :
    ∀ n i counter, build_data rng i counter n
      = some (genRows rng i counter n, counter + n) := by
  intro n
  induction n with
  | zero => intro i c; simp [build_data, genRows]
  | succ n ih =>
    intro i c
    simp [build_data, genRows, create_row, ih, Nat.add_comm, Nat.add_assoc,
      Nat.add_left_comm]

theorem genRows_length (rng : Rng) :
    ∀ n i counter, (genRows rng i counter n).length = n := by
  intro n
  induction n with
  | zero => intro i c; simp [genRows]
  | succ n ih => intro i c; simp [genRows, ih]

theorem mem_genRows_id (rng : Rng) :
    ∀ n i counter r, r ∈ genRows rng i counter n →
      counter ≤ r.id ∧ r.id < counter + n := by
  intro n
  induction n with
  | zero => intro i c r h; simp [genRows] at h
  | succ n ih =>
    intro i c r h
    simp only [genRows, List.mem_cons] at h
    rcases h with h | h
    · subst h
      exact ⟨Nat.le_refl c, Nat.lt_add_of_pos_right (Nat.succ_pos n)⟩
    · have := ih (i + 1) (c + 1) r h
      omega

theorem genRows_pairwise_lt (rng : Rng) :
    ∀ n i counter,
      List.Pairwise (fun a b => a.id < b.id) (genRows rng i counter n) := by
  intro n
  induction n with
  | zero => intro i c; simp [genRows]
  | succ n ih =>
    intro i c
    simp only [genRows, List.pairwise_cons]
    refine ⟨fun r hr => ?_, ih (i + 1) (c + 1)⟩
    have := mem_genRows_id rng n (i + 1) (c + 1) r hr
    show c < r.id
    omega

theorem idsOf_genRows_nodup (rng : Rng) (n i counter : Nat) :
    (idsOf (genRows rng i counter n)).Nodup := by
  have hp := genRows_pairwise_lt rng n i counter
  have : List.Pairwise (· ≠ ·) (idsOf (genRows rng i counter n)) := by
    unfold idsOf
    exact (List.pairwise_map).2 (hp.imp (fun h => Nat.ne_of_lt h))
  exact this

theorem updateLabels_getElem? :
    ∀ (l : List RowData) (i k : Nat),
      (updateLabels i l)[k]? = (l[k]?).map
        (fun r => if (i + k) % 10 = 0
          then { r with label := r.label ++ " !!!" } else r) := by
  intro l
  induction l with
  | nil => intro i k; simp [updateLabels]
  | cons r t ih =>
    intro i k
    cases k with
    | zero => simp [updateLabels]
    | succ k =>
      have : i + (k + 1) = (i + 1) + k := by omega
      simp [updateLabels, ih (i + 1) k, this]

theorem updateLabels_length :
    ∀ (l : List RowData) (i : Nat), (updateLabels i l).length = l.length := by
  intro l
  induction l with
  | nil => intro i; simp [updateLabels]
  | cons r t ih =>
    intro i
    simp only [updateLabels, List.length_cons, ih (i + 1)]

theorem idsOf_updateLabels :
    ∀ (l : List RowData) (i : Nat), idsOf (updateLabels i l) = idsOf l := by
  intro l
  induction l with
  | nil => intro i; simp [updateLabels]
  | cons r t ih =>
    intro i
    simp only [updateLabels, idsOf, List.map_cons] at *
    rw [ih (i + 1)]
    split <;> simp

theorem filter_remove_length (id : Nat) :
    ∀ l : List RowData, (idsOf l).Nodup → id ∈ idsOf l →
      (l.filter (fun r => r.id != id)).length + 1 = l.length := by
  intro l
  induction l with
  | nil => intro _ hm; simp [idsOf] at hm
  | cons r t ih =>
    intro hnd hm
    simp only [idsOf, List.map_cons, List.nodup_cons] at hnd
    by_cases h : r.id = id
    · have hall : ∀ x ∈ t, (x.id != id) = true := by
        intro x hx
        have : x.id ∈ idsOf t := List.mem_map_of_mem _ hx
        simp only [bne_iff_ne, ne_eq]
        intro he
        exact hnd.1 (h ▸ he ▸ this)
      simp [List.filter_cons, h, List.filter_eq_self.mpr hall]
    · have hmt : id ∈ idsOf t := by
        simp only [idsOf, List.map_cons, List.mem_cons] at hm
        rcases hm with hm | hm
        · exact absurd hm.symm h
        · exact hm
      simp [List.filter_cons, bne_iff_ne, h, ih hnd.2 hmt]

theorem not_mem_idsOf_filter (id : Nat) (l : List RowData) :
    id ∉ idsOf (l.filter (fun r => r.id != id)) := by
  simp only [idsOf, List.mem_map, List.mem_filter, bne_iff_ne, ne_eq]
  rintro ⟨r, ⟨_, hne⟩, he⟩
  exact hne he

theorem filter_of_not_mem_idsOf (id : Nat) (l : List RowData)
    (h : id ∉ idsOf l) : l.filter (fun r => r.id != id) = l := by
  apply List.filter_eq_self.mpr
  intro r hr
  simp only [bne_iff_ne, ne_eq]
  intro he
  exact h (he ▸ List.mem_map_of_mem _ hr)

theorem append_cons_swap_perm {α : Type} (C E : List α) (a b : α) :
    (b :: (C ++ a :: E)).Perm (a :: (C ++ b :: E)) := by
  have h1 : (b :: (C ++ a :: E)).Perm (b :: a :: (C ++ E)) :=
    List.Perm.cons b List.perm_middle
  have h2 : (b :: a :: (C ++ E)).Perm (a :: b :: (C ++ E)) :=
    List.Perm.swap a b _
  have h3 : (a :: b :: (C ++ E)).Perm (a :: (C ++ b :: E)) :=
    List.Perm.cons a List.perm_middle.symm
  exact (h1.trans h2).trans h3

theorem cons_set_perm {α : Type} (t : List α) (k : Nat) (a b : α)
    (hb : t[k]? = some b) : (b :: t.set k a).Perm (a :: t) := by
  have hk : k < t.length := by
    by_contra hlt
    rw [List.getElem?_eq_none (Nat.le_of_not_lt hlt)] at hb
    exact Option.noConfusion hb
  have hbe : t[k] = b := by
    have := List.getElem?_eq_getElem hk
    rw [this] at hb
    exact Option.some.inj hb
  have h1 : t.set k a = t.take k ++ a :: t.drop (k + 1) :=
    List.set_eq_take_cons_drop a hk
  have h2 : t = t.take k ++ b :: t.drop (k + 1) := by
    conv_lhs => rw [← List.take_append_drop k t]
    rw [List.drop_eq_getElem_cons hk, hbe]
  rw [h1]
  conv_rhs => rw [h2]
  exact append_cons_swap_perm (t.take k) (t.drop (k + 1)) a b

theorem set_set_perm {α : Type} :
    ∀ (l : List α) (i j : Nat), i < j → j < l.length →
      ∀ a b, l[i]? = some a → l[j]? = some b →
        ((l.set i b).set j a).Perm l := by
  intro l
  induction l with
  | nil => intro i j _ hj; simp at hj
  | cons x t ih =>
    intro i j hij hj a b ha hb
    cases i with
    | zero =>
      have hax : a = x := by
        simp only [List.getElem?_cons_zero] at ha
        exact (Option.some.inj ha).symm
      obtain ⟨k, rfl⟩ : ∃ k, j = k + 1 := ⟨j - 1, by omega⟩
      have hbt : t[k]? = some b := by
        simpa using hb
      subst hax
      simpa [List.set] using cons_set_perm t k a b hbt
    | succ m =>
      obtain ⟨k, rfl⟩ : ∃ k, j = k + 1 := ⟨j - 1, by omega⟩
      have hat : t[m]? = some a := by simpa using ha
      have hbt : t[k]? = some b := by simpa using hb
      have hk : k < t.length := by
        simp only [List.length_cons] at hj
        omega
      simpa [List.set] using
        List.Perm.cons x (ih m k (by omega) hk a b hat hbt)

theorem swap_rows_data_perm (s : AppState) :
    (swap_rowsOp s).data.Perm s.data := by
  unfold swap_rowsOp
  by_cases h : s.data.length > 998
  · have h1 : (1 : Nat) < s.data.length := by omega
    have h998 : (998 : Nat) < s.data.length := by omega
    simp only [h, if_true]
    rw [List.getElem?_eq_getElem h1, List.getElem?_eq_getElem h998]
    exact set_set_perm s.data 1 998 (by omega) h998 _ _
      (List.getElem?_eq_getElem h1) (List.getElem?_eq_getElem h998)
  · simp [h]

theorem elapsedMicros_div_1000 (e : ℚ) : elapsedMicros e / 1000 = e := by
  unfold elapsedMicros; ring

theorem elapsedMicros_div_10000 (e : ℚ) :
    elapsedMicros e / 10000 = e / 10 := by
  unfold elapsedMicros; ring

/-! ### Claim theorems -/

/-- C1: `run` (Create 1000) and `run_lots` (Create 10000) replace the whole
collection with the N freshly generated rows, reset the selection, and set
the timing metric to the elapsed time divided by N — the elapsed time taken
in microseconds, the unit the header displays; `js_sys::Date::now` yields
milliseconds, so `run` stores `elapsed_ms = elapsed_µs / 1000` and `run_lots`
stores `elapsed_ms / 10 = elapsed_µs / 10000`. -/
theorem claim_C1_create_timing_and_replace (rng : Rng) (e : ℚ) (s : AppState) :
    runOp rng e s = some
      { data := genRows rng 0 s.counter 1000, selected := none,
        op_time_avg := elapsedMicros e / 1000,
        counter := s.counter + 1000 } ∧
    run_lotsOp rng e s = some
      { data := genRows rng 0 s.counter 10000, selected := none,
        op_time_avg := elapsedMicros e / 10000,
        counter := s.counter + 10000 } := by
  rw [elapsedMicros_div_1000, elapsedMicros_div_10000]
  constructor
  · rw [runOp, build_data_eq_genRows]
    rfl
  · rw [run_lotsOp, build_data_eq_genRows]
    rfl

/-- C2: for every N ≥ 0, the generator invoked by Create N (`build_data`,
which returns exactly `genRows`) produces exactly N rows whose ids are
pairwise distinct and strictly increasing in position order. -/
theorem claim_C2_generator_distinct_increasing (rng : Rng) (n counter : Nat) :
    build_data rng 0 counter n = some (genRows rng 0 counter n, counter + n) ∧
    (genRows rng 0 counter n).length = n ∧
    List.Pairwise (fun a b => a.id < b.id) (genRows rng 0 counter n) ∧
    (idsOf (genRows rng 0 counter n)).Nodup :=
  ⟨build_data_eq_genRows rng n 0 counter, genRows_length rng n 0 counter,
    genRows_pairwise_lt rng n 0 counter, idsOf_genRows_nodup rng n 0 counter⟩

/-- C3: Append N on a collection of size M yields size M + N, the original M
rows keeping identity and order in the first M positions, followed by the N
newly generated rows in generation order. -/
theorem claim_C3_append_preserves_prefix (rng : Rng) (e : ℚ) (n : Nat)
    (s : AppState) :
    addOpN rng e n s = some
      { s with
        data := s.data ++ genRows rng 0 s.counter n
        op_time_avg := e
        counter := s.counter + n } ∧
    (s.data ++ genRows rng 0 s.counter n).length = s.data.length + n ∧
    (s.data ++ genRows rng 0 s.counter n).take s.data.length = s.data ∧
    (s.data ++ genRows rng 0 s.counter n).drop s.data.length
      = genRows rng 0 s.counter n := by
  refine ⟨?_, ?_, List.take_left _ _, List.drop_left _ _⟩
  · rw [addOpN, build_data_eq_genRows]
    rfl
  · rw [List.length_append, genRows_length]

/-- C4: one invocation of Update appends the marker `" !!!"` exactly once to
the label of every row at a position divisible by 10 (position 0 included),
leaves rows at every other position unchanged, and preserves the collection's
ids, order and length. -/
theorem claim_C4_update_every_tenth (s : AppState) :
    (updateOp s).data.length = s.data.length ∧
    idsOf (updateOp s).data = idsOf s.data ∧
    ∀ k, (updateOp s).data[k]? = (s.data[k]?).map
      (fun r => if k % 10 = 0
        then { r with label := r.label ++ " !!!" } else r) := by
  refine ⟨updateLabels_length s.data 0, idsOf_updateLabels s.data 0,
    fun k => ?_⟩
  simpa using updateLabels_getElem? s.data 0 k

/-- C5: Swap on a collection of length ≤ 998 is the identity; on a longer
collection it exchanges exactly the rows at positions 1 and 998 and leaves
every other position (and the length) unchanged. -/
theorem claim_C5_swap_positions (s : AppState) :
    (s.data.length ≤ 998 → swap_rowsOp s = s) ∧
    (998 < s.data.length →
      (swap_rowsOp s).data.length = s.data.length ∧
      (swap_rowsOp s).data[1]? = s.data[998]? ∧
      (swap_rowsOp s).data[998]? = s.data[1]? ∧
      ∀ k, k ≠ 1 → k ≠ 998 → (swap_rowsOp s).data[k]? = s.data[k]?) := by
  constructor
  · intro h
    have hng : ¬s.data.length > 998 := by omega
    unfold swap_rowsOp
    simp [hng]
  · intro h
    have h1 : (1 : Nat) < s.data.length := by omega
    have h998 : (998 : Nat) < s.data.length := by omega
    obtain ⟨a, ha⟩ : ∃ a, s.data[1]? = some a :=
      ⟨_, List.getElem?_eq_getElem h1⟩
    obtain ⟨b, hb⟩ : ∃ b, s.data[998]? = some b :=
      ⟨_, List.getElem?_eq_getElem h998⟩
    have hdata : (swap_rowsOp s).data = (s.data.set 1 b).set 998 a := by
      unfold swap_rowsOp
      rw [if_pos h, ha, hb]
    rw [hdata]
    refine ⟨by simp, ?_, ?_, fun k hk1 hk998 => ?_⟩
    · rw [List.getElem?_set_ne (by omega),
        List.getElem?_set_self (by simpa using h1), hb]
    · rw [List.getElem?_set_self (by simpa using h998), ha]
    · rw [List.getElem?_set_ne (fun he => hk998 he.symm),
        List.getElem?_set_ne (fun he => hk1 he.symm)]

/-- C5 witness: on the empty collection Swap is the identity, and on a
999-row collection position 1 afterwards holds what position 998 held. -/
theorem claim_C5_swap_positions_witness :
    swap_rowsOp { data := [], selected := none, op_time_avg := 0, counter := 0 }
      = { data := [], selected := none, op_time_avg := 0, counter := 0 } ∧
    (swap_rowsOp swapWitnessState).data[1]? = swapWitnessState.data[998]? :=
  ⟨(claim_C5_swap_positions _).1 (by decide),
    ((claim_C5_swap_positions swapWitnessState).2
      (by simp only [swapWitnessState, List.length_replicate]; omega)).2.1⟩

/-- C6: Clear always yields the empty collection, no selection, and a zero
timing metric, whatever the prior state. -/
theorem claim_C6_clear_resets (s : AppState) :
    (clearOp s).data = [] ∧ (clearOp s).selected = none ∧
    (clearOp s).op_time_avg = 0 :=
  ⟨rfl, rfl, rfl⟩

/-- C7: Remove(id) is total: under the no-duplicate-id invariant, on a
collection containing `id` it yields one fewer row, with that id absent and
the remaining rows in their original relative order (a sublist); on a
collection not containing `id` it is a no-op. -/
theorem claim_C7_remove_total (id : Nat) (s : AppState) :
    ((idsOf s.data).Nodup → id ∈ idsOf s.data →
      (removeOp id s).data.length + 1 = s.data.length ∧
      id ∉ idsOf (removeOp id s).data ∧
      (removeOp id s).data.Sublist s.data) ∧
    (id ∉ idsOf s.data → removeOp id s = s) := by
  constructor
  · intro hnd hm
    exact ⟨filter_remove_length id s.data hnd hm,
      not_mem_idsOf_filter id s.data, List.filter_sublist s.data⟩
  · intro hnm
    show { s with data := s.data.filter fun r => r.id != id } = s
    rw [filter_of_not_mem_idsOf id s.data hnm]

/-- C7 witness: removing id 1 from the two-row state drops exactly that row;
removing the absent id 5 is a no-op. -/
theorem claim_C7_remove_total_witness :
    ((removeOp 1 removeWitnessState).data.length + 1
        = removeWitnessState.data.length ∧
      1 ∉ idsOf (removeOp 1 removeWitnessState).data ∧
      (removeOp 1 removeWitnessState).data.Sublist
        removeWitnessState.data) ∧
    removeOp 5 removeWitnessState = removeWitnessState :=
  ⟨(claim_C7_remove_total 1 removeWitnessState).1 (by decide) (by decide),
    (claim_C7_remove_total 5 removeWitnessState).2 (by decide)⟩

/-- C8: the shell command `create_row` returns success on every input and has
no side effect, so the `expect("oops")` in `build_data` never fires:
`build_data` always returns the generated rows (`none`, the panic, is
unreachable). -/
theorem claim_C8_create_row_infallible (rng : Rng) (n i counter : Nat) :
    (∀ iid rid label, create_row iid rid label = Except.ok ()) ∧
    build_data rng i counter n
      = some (genRows rng i counter n, counter + n) :=
  ⟨fun _ _ _ => rfl, build_data_eq_genRows rng n i counter⟩

/-- C9: every operation preserves the no-duplicate-id invariant (with every
id below the counter), the bulk generators only advance the counter, and a
generator run started at the current counter only assigns ids that are at
least the counter — hence never an id already assigned (all of which are
below the counter). -/
theorem claim_C9_no_duplicate_ids (s : AppState) (rng : Rng) (e : ℚ)
    (id n : Nat) (h : Inv s) :
    Inv (clearOp s) ∧ Inv (updateOp s) ∧ Inv (swap_rowsOp s) ∧
    Inv (removeOp id s) ∧ Inv (selectOp id s) ∧
    (∀ t, runOp rng e s = some t → Inv t ∧ s.counter ≤ t.counter) ∧
    (∀ t, run_lotsOp rng e s = some t → Inv t ∧ s.counter ≤ t.counter) ∧
    (∀ t, addOpN rng e n s = some t → Inv t ∧ s.counter ≤ t.counter) ∧
    (∀ j ∈ idsOf (genRows rng 0 s.counter n), s.counter ≤ j) := by
  obtain ⟨hnd, hlt⟩ := h
  refine ⟨?_, ?_, ?_, ?_, ?_, ?_, ?_, ?_, ?_⟩
  · exact ⟨by simp [clearOp, idsOf], by simp [clearOp, idsOf]⟩
  · constructor
    · show (idsOf (updateLabels 0 s.data)).Nodup
      rw [idsOf_updateLabels]
      exact hnd
    · show ∀ j ∈ idsOf (updateLabels 0 s.data), j < s.counter
      rw [idsOf_updateLabels]
      exact hlt
  · have hperm : (idsOf (swap_rowsOp s).data).Perm (idsOf s.data) :=
      (swap_rows_data_perm s).map _
    exact ⟨hperm.nodup_iff.mpr hnd, fun j hj => hlt j (hperm.mem_iff.mp hj)⟩
  · have hsub : (idsOf (removeOp id s).data).Sublist (idsOf s.data) :=
      (List.filter_sublist s.data).map _
    exact ⟨hnd.sublist hsub, fun j hj => hlt j (hsub.subset hj)⟩
  · exact ⟨hnd, hlt⟩
  · intro t ht
    rw [runOp, build_data_eq_genRows] at ht
    cases Option.some.inj ht
    refine ⟨⟨idsOf_genRows_nodup rng 1000 0 s.counter, fun j hj => ?_⟩,
      Nat.le_add_right _ _⟩
    obtain ⟨r, hr, rfl⟩ := List.mem_map.mp hj
    exact (mem_genRows_id rng 1000 0 s.counter r hr).2
  · intro t ht
    rw [run_lotsOp, build_data_eq_genRows] at ht
    cases Option.some.inj ht
    refine ⟨⟨idsOf_genRows_nodup rng 10000 0 s.counter, fun j hj => ?_⟩,
      Nat.le_add_right _ _⟩
    obtain ⟨r, hr, rfl⟩ := List.mem_map.mp hj
    exact (mem_genRows_id rng 10000 0 s.counter r hr).2
  · intro t ht
    rw [addOpN, build_data_eq_genRows] at ht
    cases Option.some.inj ht
    refine ⟨⟨?_, ?_⟩, Nat.le_add_right _ _⟩
    · show (idsOf (s.data ++ genRows rng 0 s.counter n)).Nodup
      rw [idsOf, List.map_append, List.nodup_append]
      refine ⟨hnd, idsOf_genRows_nodup rng n 0 s.counter, ?_⟩
      intro j hj hj'
      obtain ⟨r, hr, rfl⟩ := List.mem_map.mp hj'
      have := (mem_genRows_id rng n 0 s.counter r hr).1
      have := hlt _ hj
      omega
    · show ∀ j ∈ idsOf (s.data ++ genRows rng 0 s.counter n),
        j < s.counter + n
      rw [idsOf, List.map_append]
      intro j hj
      rcases List.mem_append.mp hj with hj | hj
      · have := hlt j hj
        omega
      · obtain ⟨r, hr, rfl⟩ := List.mem_map.mp hj
        exact (mem_genRows_id rng n 0 s.counter r hr).2
  · intro j hj
    obtain ⟨r, hr, rfl⟩ := List.mem_map.mp hj
    exact (mem_genRows_id rng n 0 s.counter r hr).1

/-- C9 witness: the invariant holds of a concrete one-row state and is kept
by Clear. -/
theorem claim_C9_no_duplicate_ids_witness : Inv (clearOp invWitnessState) :=
  (claim_C9_no_duplicate_ids invWitnessState (fun _ => (0, 0, 0)) 0 0 0
    (by decide)).1

/-- C10: Update, Swap and Remove leave the selection and the timing metric
(and the id counter) unchanged — only the row collection may differ. -/
theorem claim_C10_frame (s : AppState) (id : Nat) :
    (updateOp s).selected = s.selected ∧
    (updateOp s).op_time_avg = s.op_time_avg ∧
    (updateOp s).counter = s.counter ∧
    (swap_rowsOp s).selected = s.selected ∧
    (swap_rowsOp s).op_time_avg = s.op_time_avg ∧
    (swap_rowsOp s).counter = s.counter ∧
    (removeOp id s).selected = s.selected ∧
    (removeOp id s).op_time_avg = s.op_time_avg ∧
    (removeOp id s).counter = s.counter :=
  ⟨rfl, rfl, rfl, rfl, rfl, rfl, rfl, rfl, rfl⟩

end TauriGluePerf
